import Mathlib

/-!
Shallow embedding of the CacheCraft two-tier cache orchestrator
(`pkg/cache/cache.go`): a bounded in-memory LRU cache in front of a
remote key-value store (Redis), with TTL-aware lookup, write-through
`Set`, two-layer `Purge`, and local-layer `Stats`.

Modelling choices:
- `time.Time` is a `Nat` instant; every operation receives the current
  instant `now` explicitly (the Go code reads `time.Now()` inside).
- Byte slices (`[]byte`) are `List Nat`.
- The bounded recency-ordered local cache (`hashicorp/golang-lru`,
  an external collaborator per the spec) is modelled as an association
  list in most-recently-used-first order with a capacity bound:
  `get` moves a hit to the front, `add` inserts/overwrites at the front
  and drops the least-recently-used tail entry when over capacity,
  `remove` deletes, `keys` lists keys oldest-first.
- The remote store client is split in two: the orchestrator code is
  parameterised by an abstract reply function
  `redisGet : String → RedisReply` (found / redis.Nil / other error),
  exactly the three outcomes `Cache.Get` distinguishes; and a concrete
  healthy-store state `RemoteState` instantiates it for end-to-end
  claims.  Each operation also returns the list of remote commands it
  issued (`RemoteOp` trace), so "performs no remote call" and
  "never writes to the remote store" are statable.
-/

namespace CacheCraft

/-- Byte slices (`[]byte` in Go). -/
abbrev Bytes := List Nat

/-- `cacheEntry` from cache.go: a value plus its absolute expiry instant. -/
structure cacheEntry where
  value : Bytes
  expiresAt : Nat
deriving Repr, DecidableEq

/-- The bounded recency-ordered local cache (external collaborator:
`hashicorp/golang-lru`).  `entries` is kept most-recently-used first and
(by construction through the operations below) duplicate-free in keys. -/
structure LRU where
  capacity : Nat
  entries : List (String × cacheEntry)
deriving Repr, DecidableEq

/-- Pure lookup of the entry stored under `k` (no recency effect). -/
def LRU.lookup (l : LRU) (k : String) : Option cacheEntry :=
  (l.entries.find? (fun p => p.1 == k)).map (fun p => p.2)

/-- `lru.Get`: returns the entry under `k` (if any) and the cache with that
entry marked most recently used. -/
def LRU.get (l : LRU) (k : String) : Option cacheEntry × LRU :=
  match l.entries.find? (fun p => p.1 == k) with
  | some p => (some p.2, ⟨l.capacity, p :: l.entries.filter (fun q => !(q.1 == k))⟩)
  | none => (none, l)

/-- `lru.Add`: insert or overwrite `k`, marking it most recently used;
when this pushes the cache over capacity the least-recently-used entry
(the tail) is evicted. -/
def LRU.add (l : LRU) (k : String) (e : cacheEntry) : LRU :=
  ⟨l.capacity, ((k, e) :: l.entries.filter (fun q => !(q.1 == k))).take l.capacity⟩

/-- `lru.Remove`: delete `k` (no-op when absent). -/
def LRU.remove (l : LRU) (k : String) : LRU :=
  ⟨l.capacity, l.entries.filter (fun q => !(q.1 == k))⟩

/-- `lru.Len`: current number of entries. -/
def LRU.len (l : LRU) : Nat :=
  l.entries.length

/-- `lru.Keys`: the held keys, oldest first. -/
def LRU.keys (l : LRU) : List String :=
  (l.entries.map Prod.fst).reverse

/-- Outcome of a single remote `GET` as seen by the orchestrator:
a value, the `redis.Nil` not-found reply, or any other error. -/
inductive RedisReply where
  | ok (v : Bytes)
  | nil
  | err (msg : String)
deriving Repr, DecidableEq

/-- Result of `Cache.Get`: the Go `([]byte, error)` pair collapsed to its
three reachable shapes: a value with nil error, `ErrNotFound`, or a
wrapped redis error. -/
inductive GetResult where
  | ok (v : Bytes)
  | notFound
  | redisErr (msg : String)
deriving Repr, DecidableEq

/-- A remote-store command issued by an operation (the observable effect
trace on the Redis layer). -/
inductive RemoteOp where
  | get (k : String)
  | set (k : String) (v : Bytes) (ttl : Nat)
  | del (k : String)
deriving Repr, DecidableEq

/-- The `Cache` struct from cache.go (the redis handle is passed to each
operation as a reply function / recorded in the trace, the `context` is
irrelevant to the embedded logic). -/
structure Cache where
  memCache : LRU
  defaultTTL : Nat
deriving Repr, DecidableEq

/-- The `Stats` struct from cache.go. -/
structure Stats where
  MemHits : Int
  MemMisses : Int
  MemEvicts : Int
  MemLen : Nat
  MemKeys : List String
deriving Repr, DecidableEq

/-- `New` from cache.go, on the pre-built-client path: `lru.New` rejects a
non-positive size, otherwise the orchestrator starts with an empty local
cache.  (`MaxMemEntries` is a Go `int`, hence `Int` here.) -/
def New (maxMemEntries : Int) (defaultTTL : Nat) : Except String Cache :=
  if maxMemEntries ≤ 0 then
    Except.error "failed to create memory cache: Must provide a positive size"
  else
    Except.ok ⟨⟨maxMemEntries.toNat, []⟩, defaultTTL⟩

/-- Step 2 of `Cache.Get`: the remote fallback.  On a remote hit the local
layer is repopulated with expiry `now + defaultTTL`; `redis.Nil` becomes
`ErrNotFound`; any other error is wrapped. -/
def Cache.getRemote (c : Cache) (redisGet : String → RedisReply) (now : Nat)
    (id : String) : GetResult × Cache × List RemoteOp :=
  match redisGet id with
  | RedisReply.ok val =>
      (GetResult.ok val,
       ⟨c.memCache.add id ⟨val, now + c.defaultTTL⟩, c.defaultTTL⟩,
       [RemoteOp.get id])
  | RedisReply.nil => (GetResult.notFound, c, [RemoteOp.get id])
  | RedisReply.err e =>
      (GetResult.redisErr ("redis GET error: " ++ e), c, [RemoteOp.get id])

/-- `Cache.Get` from cache.go: consult the local LRU first; a present entry
with `now < expiresAt` is returned immediately (no remote command); a
present expired entry is removed; on expiry or absence fall through to
the remote store. -/
def Cache.Get (c : Cache) (redisGet : String → RedisReply) (now : Nat)
    (id : String) : GetResult × Cache × List RemoteOp :=
  let hit := c.memCache.get id
  match hit.1 with
  | some entry =>
      if now < entry.expiresAt then
        (GetResult.ok entry.value, ⟨hit.2, c.defaultTTL⟩, [])
      else
        Cache.getRemote ⟨(hit.2).remove id, c.defaultTTL⟩ redisGet now id
  | none => Cache.getRemote ⟨hit.2, c.defaultTTL⟩ redisGet now id

/-- `Cache.Set` from cache.go: write-through with the default TTL — insert
`{value, now + defaultTTL}` locally, then issue a remote `SET` with the
same TTL. -/
def Cache.Set (c : Cache) (now : Nat) (id : String) (value : Bytes) :
    Cache × List RemoteOp :=
  (⟨c.memCache.add id ⟨value, now + c.defaultTTL⟩, c.defaultTTL⟩,
   [RemoteOp.set id value c.defaultTTL])

/-- `Cache.Purge` from cache.go: remove locally, then issue a remote `DEL`. -/
def Cache.Purge (c : Cache) (id : String) : Cache × List RemoteOp :=
  (⟨c.memCache.remove id, c.defaultTTL⟩, [RemoteOp.del id])

/-- `Cache.Stats` from cache.go: only `MemLen` and `MemKeys` are populated;
the counter fields keep their Go zero value. -/
def Cache.Stats (c : Cache) : Stats :=
  ⟨0, 0, 0, c.memCache.len, c.memCache.keys⟩

/-- Local-layer freshness test: `k` is held locally and not yet expired at
`now` (the condition under which `Cache.Get` short-circuits). -/
def Cache.localFresh (c : Cache) (now : Nat) (k : String) : Bool :=
  match c.memCache.lookup k with
  | some e => decide (now < e.expiresAt)
  | none => false

/-- One entry of the healthy remote store: a value and Redis's own expiry
instant (`none` when the key was written with TTL 0, i.e. no expiry). -/
structure RemoteEntry where
  value : Bytes
  expiresAt : Option Nat
deriving Repr, DecidableEq

/-- State of the healthy remote store. -/
abbrev RemoteState := List (String × RemoteEntry)

/-- Whether a remote entry is still readable at `now`. -/
def RemoteEntry.live (e : RemoteEntry) (now : Nat) : Bool :=
  match e.expiresAt with
  | none => true
  | some t => decide (now < t)

/-- The reply function of a healthy remote store in state `r` at `now`. -/
def remoteGetFn (r : RemoteState) (now : Nat) : String → RedisReply :=
  fun k =>
    match r.find? (fun p => p.1 == k) with
    | some p => if p.2.live now then RedisReply.ok p.2.value else RedisReply.nil
    | none => RedisReply.nil

/-- Remote `SET` with TTL: expiry `now + ttl`, or no expiry when `ttl = 0`
(Redis keeps a key written with expiration 0 forever). -/
def remoteSet (r : RemoteState) (now : Nat) (k : String) (v : Bytes)
    (ttl : Nat) : RemoteState :=
  (k, ⟨v, if ttl = 0 then none else some (now + ttl)⟩)
    :: r.filter (fun p => !(p.1 == k))

/-- Remote `DEL`. -/
def remoteDel (r : RemoteState) (k : String) : RemoteState :=
  r.filter (fun p => !(p.1 == k))

/-- Effect of one traced remote command on a healthy remote store. -/
def applyOp (now : Nat) (r : RemoteState) : RemoteOp → RemoteState
  | RemoteOp.get _ => r
  | RemoteOp.set k v ttl => remoteSet r now k v ttl
  | RemoteOp.del k => remoteDel r k

/-- Effect of a command trace on a healthy remote store. -/
def applyOps (now : Nat) (r : RemoteState) (ops : List RemoteOp) : RemoteState :=
  ops.foldl (applyOp now) r

/-- The whole two-tier system: the orchestrator plus the healthy remote
store it talks to. -/
structure TwoTier where
  cache : Cache
  remote : RemoteState
deriving Repr, DecidableEq

/-- `Get` against the full system: run the orchestrator against the current
remote state and apply the issued commands to the store. -/
def TwoTier.Get (s : TwoTier) (now : Nat) (id : String) :
    GetResult × TwoTier × List RemoteOp :=
  let r := s.cache.Get (remoteGetFn s.remote now) now id
  (r.1, ⟨r.2.1, applyOps now s.remote r.2.2⟩, r.2.2)

/-- `Set` against the full system. -/
def TwoTier.Set (s : TwoTier) (now : Nat) (id : String) (v : Bytes) : TwoTier :=
  let r := s.cache.Set now id v
  ⟨r.1, applyOps now s.remote r.2⟩

/-- `Purge` against the full system. -/
def TwoTier.Purge (s : TwoTier) (now : Nat) (id : String) : TwoTier :=
  let r := s.cache.Purge id
  ⟨r.1, applyOps now s.remote r.2⟩

/-- A remote that answers every `GET` with the same value (a concrete
reply function for instantiating theorems). -/
def constOk (v : Bytes) : String → RedisReply :=
  fun _ => RedisReply.ok v

/-- A remote that answers every `GET` with `redis.Nil`. -/
def constNil : String → RedisReply :=
  fun _ => RedisReply.nil

/-! ## Helper lemmas -/

/-- Searching for key `k` after filtering `k` out finds nothing. -/
theorem find?_filter_ne {α : Type} (l : List (String × α)) (k : String) :
    (l.filter (fun p => !(p.1 == k))).find? (fun p => p.1 == k) = none := by
  rw [List.find?_eq_none]
  intro x hx
  have hq := (List.mem_filter.mp hx).2
  simpa using hq

/-- Filtering key `k` out twice equals filtering once. -/
theorem filter_ne_idem {α : Type} (l : List (String × α)) (k : String) :
    ((l.filter (fun p => !(p.1 == k))).filter (fun p => !(p.1 == k)))
      = l.filter (fun p => !(p.1 == k)) := by
  induction l with
  | nil => rfl
  | cons a t ih =>
      by_cases h : (a.1 == k) = true <;> simp [List.filter_cons, h, ih]

/-- After `add k e` into an `LRU` with positive capacity, `k` is held with
entry `e`. -/
theorem lookup_add_of_pos (l : LRU) (k : String) (e : cacheEntry)
    (h : 1 ≤ l.capacity) :
    (l.add k e).lookup k = some e := by
  obtain ⟨m, hm⟩ : ∃ m, l.capacity = m + 1 := ⟨l.capacity - 1, by omega⟩
  unfold LRU.add LRU.lookup
  have hfind :
      List.find? (fun p => p.1 == k)
          ((k, e) :: ((l.entries.filter (fun q => !(q.1 == k))).take m))
        = some (k, e) :=
    List.find?_cons_of_pos _ (by simp)
  rw [hm, List.take_succ_cons, hfind]
  rfl

/-- `add` into a capacity-zero `LRU` stores nothing. -/
theorem lookup_add_of_zero (l : LRU) (k k' : String) (e : cacheEntry)
    (h : l.capacity = 0) :
    (l.add k e).lookup k' = none := by
  simp [LRU.add, LRU.lookup, h]

/-- The remote fallback always issues exactly one remote `GET`. -/
theorem getRemote_trace (c : Cache) (rg : String → RedisReply) (now : Nat)
    (k : String) :
    (Cache.getRemote c rg now k).2.2 = [RemoteOp.get k] := by
  unfold Cache.getRemote
  split <;> rfl

/-- When `k` is locally absent, `Get` is exactly the remote fallback. -/
theorem get_of_lookup_none (c : Cache) (rg : String → RedisReply) (now : Nat)
    (k : String) (hl : c.memCache.lookup k = none) :
    Cache.Get c rg now k = Cache.getRemote c rg now k := by
  unfold LRU.lookup at hl
  rw [Option.map_eq_none'] at hl
  unfold Cache.Get LRU.get
  rw [hl]

/-- When `k` is held locally but expired, `Get` is exactly the remote
fallback run on the cache with `k` removed. -/
theorem get_of_expired (c : Cache) (rg : String → RedisReply) (now : Nat)
    (k : String) (e : cacheEntry) (hl : c.memCache.lookup k = some e)
    (hexp : ¬ now < e.expiresAt) :
    Cache.Get c rg now k
      = Cache.getRemote ⟨c.memCache.remove k, c.defaultTTL⟩ rg now k := by
  unfold LRU.lookup at hl
  obtain ⟨p, hp, hpe⟩ := Option.map_eq_some'.mp hl
  have hk : (p.1 == k) = true := by simpa using List.find?_some hp
  unfold Cache.Get LRU.get
  rw [hp]
  simp only [hpe, hexp, if_false]
  unfold LRU.remove
  simp [List.filter_cons, hk, filter_ne_idem]

/-- When `k` is held locally and fresh, `Get` returns its value with no
remote command. -/
theorem get_of_fresh (c : Cache) (rg : String → RedisReply) (now : Nat)
    (k : String) (e : cacheEntry) (hl : c.memCache.lookup k = some e)
    (hfr : now < e.expiresAt) :
    (Cache.Get c rg now k).1 = GetResult.ok e.value ∧
    (Cache.Get c rg now k).2.2 = [] := by
  unfold LRU.lookup at hl
  obtain ⟨p, hp, hpe⟩ := Option.map_eq_some'.mp hl
  unfold Cache.Get LRU.get
  rw [hp]
  simp [hpe, hfr]

/-- `Get` issues either no remote command (fresh local hit) or exactly one
remote `GET`. -/
theorem get_trace_shape (c : Cache) (rg : String → RedisReply) (now : Nat)
    (k : String) :
    (Cache.Get c rg now k).2.2 = [] ∨
    (Cache.Get c rg now k).2.2 = [RemoteOp.get k] := by
  rcases hl : c.memCache.lookup k with _ | e
  · rw [get_of_lookup_none c rg now k hl]
    exact Or.inr (getRemote_trace _ rg now k)
  · by_cases hfr : now < e.expiresAt
    · exact Or.inl (get_of_fresh c rg now k e hl hfr).2
    · rw [get_of_expired c rg now k e hl hfr]
      exact Or.inr (getRemote_trace _ rg now k)

/-- When `k` is not fresh locally and the remote replies with `v`, `Get`
returns `v`, repopulates the local layer (same capacity as before), and
issues exactly one remote `GET`. -/
theorem get_fallback_core (c : Cache) (rg : String → RedisReply) (now : Nat)
    (k : String) (v : Bytes) (hfresh : c.localFresh now k = false)
    (hr : rg k = RedisReply.ok v) :
    ∃ mem : LRU, mem.capacity = c.memCache.capacity ∧
      Cache.Get c rg now k
        = (GetResult.ok v,
           ⟨mem.add k ⟨v, now + c.defaultTTL⟩, c.defaultTTL⟩,
           [RemoteOp.get k]) := by
  unfold Cache.localFresh at hfresh
  rcases hl : c.memCache.lookup k with _ | e
  · refine ⟨c.memCache, rfl, ?_⟩
    rw [get_of_lookup_none c rg now k hl]
    simp [Cache.getRemote, hr]
  · rw [hl] at hfresh
    simp only [decide_eq_false_iff_not] at hfresh
    refine ⟨c.memCache.remove k, rfl, ?_⟩
    rw [get_of_expired c rg now k e hl hfresh]
    simp [Cache.getRemote, hr]

/-- A `Get` against a cache whose entry for `k` was just written with an
expiry that has already passed issues exactly one remote `GET`. -/
theorem get_trace_after_stale_add (l : LRU) (ttl : Nat)
    (rg : String → RedisReply) (now : Nat) (k : String) (e : cacheEntry)
    (hst : e.expiresAt ≤ now) :
    (Cache.Get ⟨l.add k e, ttl⟩ rg now k).2.2 = [RemoteOp.get k] := by
  rcases Nat.eq_zero_or_pos l.capacity with h0 | hpos
  · have hnone : (l.add k e).lookup k = none := lookup_add_of_zero l k k e h0
    rw [get_of_lookup_none ⟨l.add k e, ttl⟩ rg now k hnone]
    exact getRemote_trace _ rg now k
  · have hsome : (l.add k e).lookup k = some e := lookup_add_of_pos l k e hpos
    rw [get_of_expired ⟨l.add k e, ttl⟩ rg now k e hsome (by omega)]
    exact getRemote_trace _ rg now k

/-- The remote fallback alone already satisfies the result trichotomy. -/
theorem getRemote_trichotomy (c : Cache) (rg : String → RedisReply)
    (now : Nat) (k : String) :
    (∃ v, (Cache.getRemote c rg now k).1 = GetResult.ok v) ∨
    ((Cache.getRemote c rg now k).1 = GetResult.notFound ∧
       rg k = RedisReply.nil) ∨
    (∃ m, rg k = RedisReply.err m ∧
       (Cache.getRemote c rg now k).1
         = GetResult.redisErr ("redis GET error: " ++ m)) := by
  unfold Cache.getRemote
  rcases hr : rg k with v | _ | m
  · exact Or.inl ⟨v, rfl⟩
  · exact Or.inr (Or.inl ⟨rfl, rfl⟩)
  · exact Or.inr (Or.inr ⟨m, rfl, rfl⟩)

/-! ## Claim theorems -/

/-- C2: immediately after `Set(k, v)` (with a positive default TTL, before
the TTL elapses), `Get(k)` returns `v` from the local layer and performs
no remote-store call (empty remote-command trace). -/
theorem set_then_get_local_hit (s : TwoTier) (now nowG : Nat) (k : String)
    (v : Bytes) (hcap : 1 ≤ s.cache.memCache.capacity)
    (_hpos : 0 < s.cache.defaultTTL)
    (hlt : nowG < now + s.cache.defaultTTL) :
    (TwoTier.Get (TwoTier.Set s now k v) nowG k).1 = GetResult.ok v ∧
    (TwoTier.Get (TwoTier.Set s now k v) nowG k).2.2 = [] := by
  have hlook : (TwoTier.Set s now k v).cache.memCache.lookup k
      = some ⟨v, now + s.cache.defaultTTL⟩ :=
    lookup_add_of_pos s.cache.memCache k ⟨v, now + s.cache.defaultTTL⟩ hcap
  have h := get_of_fresh (TwoTier.Set s now k v).cache
    (remoteGetFn (TwoTier.Set s now k v).remote nowG) nowG k
    ⟨v, now + s.cache.defaultTTL⟩ hlook hlt
  exact ⟨h.1, h.2⟩

/-- Witness for C2 at a concrete system. -/
theorem set_then_get_local_hit_witness :
    (TwoTier.Get (TwoTier.Set ⟨⟨⟨1, []⟩, 10⟩, []⟩ 0 "k" [3]) 5 "k").1
        = GetResult.ok [3] ∧
    (TwoTier.Get (TwoTier.Set ⟨⟨⟨1, []⟩, 10⟩, []⟩ 0 "k" [3]) 5 "k").2.2 = [] :=
  set_then_get_local_hit ⟨⟨⟨1, []⟩, 10⟩, []⟩ 0 5 "k" [3]
    (by decide) (by decide) (by decide)

/-- C4: `Get` returns exactly one of: a value, `NotFound` (and then only
because the remote reported not-found), or a wrapped remote error coming
from a remote failure other than absence. -/
theorem get_result_trichotomy (c : Cache) (rg : String → RedisReply)
    (now : Nat) (k : String) :
    (∃ v, (Cache.Get c rg now k).1 = GetResult.ok v) ∨
    ((Cache.Get c rg now k).1 = GetResult.notFound ∧ rg k = RedisReply.nil) ∨
    (∃ m, rg k = RedisReply.err m ∧
       (Cache.Get c rg now k).1
         = GetResult.redisErr ("redis GET error: " ++ m)) := by
  rcases hl : c.memCache.lookup k with _ | e
  · rw [get_of_lookup_none c rg now k hl]
    exact getRemote_trichotomy c rg now k
  · by_cases hfr : now < e.expiresAt
    · exact Or.inl ⟨e.value, (get_of_fresh c rg now k e hl hfr).1⟩
    · rw [get_of_expired c rg now k e hl hfr]
      exact getRemote_trichotomy _ rg now k

/-- C5: `New` with local capacity ≤ 0 returns an error and no orchestrator;
when `New` succeeds the orchestrator's local cache is empty (size 0, no
keys). -/
theorem new_rejects_nonpositive_capacity_and_starts_empty (n : Int)
    (ttl : Nat) :
    (n ≤ 0 →
       New n ttl
         = Except.error
             "failed to create memory cache: Must provide a positive size") ∧
    (∀ c, New n ttl = Except.ok c →
       c.memCache.entries = [] ∧ (Cache.Stats c).MemLen = 0 ∧
         (Cache.Stats c).MemKeys = []) := by
  constructor
  · intro h
    simp [New, h]
  · intro c hc
    unfold New at hc
    by_cases h : n ≤ 0
    · rw [if_pos h] at hc
      exact absurd hc (by simp)
    · rw [if_neg h] at hc
      injection hc with h2
      subst h2
      exact ⟨rfl, rfl, rfl⟩

/-- Witness for C5 at concrete capacities -1 and 2. -/
theorem new_rejects_nonpositive_capacity_witness :
    New (-1) 7
        = Except.error
            "failed to create memory cache: Must provide a positive size" ∧
    ((⟨⟨2, []⟩, 7⟩ : Cache).memCache.entries = [] ∧
      (Cache.Stats ⟨⟨2, []⟩, 7⟩).MemLen = 0 ∧
      (Cache.Stats ⟨⟨2, []⟩, 7⟩).MemKeys = []) :=
  ⟨(new_rejects_nonpositive_capacity_and_starts_empty (-1) 7).1 (by decide),
   (new_rejects_nonpositive_capacity_and_starts_empty 2 7).2 ⟨⟨2, []⟩, 7⟩ rfl⟩

/-- C6: after `Set(k, v)` then `Purge(k)` (no concurrent writers),
`Get(k)` returns `NotFound`: the key is in neither layer. -/
theorem purge_after_set_yields_notFound (s : TwoTier) (nowS nowP nowG : Nat)
    (k : String) (v : Bytes) :
    (TwoTier.Get (TwoTier.Purge (TwoTier.Set s nowS k v) nowP k) nowG k).1
      = GetResult.notFound := by
  have hmem : (TwoTier.Purge (TwoTier.Set s nowS k v) nowP k).cache.memCache.lookup k
      = none := by
    simp [TwoTier.Purge, TwoTier.Set, Cache.Purge, Cache.Set, LRU.remove,
      LRU.lookup, find?_filter_ne]
  have hrg : remoteGetFn (TwoTier.Purge (TwoTier.Set s nowS k v) nowP k).remote nowG k
      = RedisReply.nil := by
    simp [TwoTier.Purge, TwoTier.Set, Cache.Purge, Cache.Set, applyOps, applyOp,
      remoteDel, remoteSet, remoteGetFn, find?_filter_ne]
    rw [List.find?_eq_none.mpr (fun x _ => by simp)]
  have h := get_of_lookup_none
    (TwoTier.Purge (TwoTier.Set s nowS k v) nowP k).cache
    (remoteGetFn (TwoTier.Purge (TwoTier.Set s nowS k v) nowP k).remote nowG)
    nowG k hmem
  show (Cache.Get (TwoTier.Purge (TwoTier.Set s nowS k v) nowP k).cache
    (remoteGetFn (TwoTier.Purge (TwoTier.Set s nowS k v) nowP k).remote nowG)
    nowG k).1 = GetResult.notFound
  rw [h]
  simp [Cache.getRemote, hrg]

/-- C8: `Get` never writes to the remote store: the remote state (contents
and remote TTLs) is unchanged, and the command trace holds no command
but at most one remote `GET`. -/
theorem get_preserves_remote (s : TwoTier) (now : Nat) (k : String) :
    (TwoTier.Get s now k).2.1.remote = s.remote ∧
    ((TwoTier.Get s now k).2.2 = [] ∨
       (TwoTier.Get s now k).2.2 = [RemoteOp.get k]) := by
  have h := get_trace_shape s.cache (remoteGetFn s.remote now) now k
  refine ⟨?_, h⟩
  rcases h with h | h <;> simp [TwoTier.Get, h, applyOps, applyOp]

/-- C9: expiry uses a strict comparison: a local entry whose `expiresAt`
equals the current instant is treated as expired — `Get` behaves exactly
as on the cache with the entry removed and performs the remote fallback,
instead of returning a local hit. -/
theorem boundary_expiry_is_expired (c : Cache) (rg : String → RedisReply)
    (now : Nat) (k : String) (e : cacheEntry)
    (hl : c.memCache.lookup k = some e) (heq : e.expiresAt = now) :
    Cache.Get c rg now k
        = Cache.Get ⟨c.memCache.remove k, c.defaultTTL⟩ rg now k ∧
    (Cache.Get c rg now k).2.2 = [RemoteOp.get k] := by
  have hnf : ¬ now < e.expiresAt := by omega
  have h1 := get_of_expired c rg now k e hl hnf
  have hrm : (⟨c.memCache.remove k, c.defaultTTL⟩ : Cache).memCache.lookup k
      = none := by
    simp [LRU.remove, LRU.lookup, find?_filter_ne]
  have h2 := get_of_lookup_none ⟨c.memCache.remove k, c.defaultTTL⟩ rg now k hrm
  exact ⟨h1.trans h2.symm, by rw [h1]; exact getRemote_trace _ rg now k⟩

/-- Witness for C9 at a concrete cache whose entry expires exactly now. -/
theorem boundary_expiry_is_expired_witness :
    (Cache.Get ⟨⟨1, [("k", ⟨[5], 3⟩)]⟩, 10⟩ constNil 3 "k"
        = Cache.Get ⟨(⟨1, [("k", ⟨[5], 3⟩)]⟩ : LRU).remove "k", 10⟩
            constNil 3 "k") ∧
    (Cache.Get ⟨⟨1, [("k", ⟨[5], 3⟩)]⟩, 10⟩ constNil 3 "k").2.2
        = [RemoteOp.get "k"] :=
  boundary_expiry_is_expired ⟨⟨1, [("k", ⟨[5], 3⟩)]⟩, 10⟩ constNil 3 "k"
    ⟨[5], 3⟩ (by decide) rfl

/-- C10: the `MemHits`, `MemMisses`, `MemEvicts` fields of `Stats()` are
always zero in every state; `Stats` populates only `MemLen` and
`MemKeys`. -/
theorem stats_counters_always_zero (c : Cache) :
    (Cache.Stats c).MemHits = 0 ∧ (Cache.Stats c).MemMisses = 0 ∧
    (Cache.Stats c).MemEvicts = 0 ∧
    (Cache.Stats c).MemLen = c.memCache.len ∧
    (Cache.Stats c).MemKeys = c.memCache.keys :=
  ⟨rfl, rfl, rfl, rfl, rfl⟩

/-- C1: when `k` is not fresh locally (absent or expired) but the remote
store holds `v`, `Get(k)` returns `v` and inserts
`{value := v, expiresAt := now + defaultTTL}` into the local cache, so a
subsequent `Get(k)` before that expiry returns `v` with no remote
command. -/
theorem remote_fallback_repopulates (s : TwoTier) (now nowG : Nat)
    (k : String) (v : Bytes) (hcap : 1 ≤ s.cache.memCache.capacity)
    (hfresh : s.cache.localFresh now k = false)
    (hremote : remoteGetFn s.remote now k = RedisReply.ok v)
    (hlt : nowG < now + s.cache.defaultTTL) :
    (TwoTier.Get s now k).1 = GetResult.ok v ∧
    (TwoTier.Get s now k).2.1.cache.memCache.lookup k
        = some ⟨v, now + s.cache.defaultTTL⟩ ∧
    (TwoTier.Get (TwoTier.Get s now k).2.1 nowG k).1 = GetResult.ok v ∧
    (TwoTier.Get (TwoTier.Get s now k).2.1 nowG k).2.2 = [] := by
  obtain ⟨mem, hmc, heq⟩ :=
    get_fallback_core s.cache (remoteGetFn s.remote now) now k v hfresh hremote
  have hcap2 : 1 ≤ mem.capacity := by rw [hmc]; exact hcap
  have h1 : (TwoTier.Get s now k).1 = GetResult.ok v := by
    simp only [TwoTier.Get, heq]
  have hlook : (TwoTier.Get s now k).2.1.cache.memCache.lookup k
      = some ⟨v, now + s.cache.defaultTTL⟩ := by
    simp only [TwoTier.Get, heq]
    exact lookup_add_of_pos mem k ⟨v, now + s.cache.defaultTTL⟩ hcap2
  have h3 := get_of_fresh (TwoTier.Get s now k).2.1.cache
    (remoteGetFn (TwoTier.Get s now k).2.1.remote nowG) nowG k
    ⟨v, now + s.cache.defaultTTL⟩ hlook hlt
  exact ⟨h1, hlook, h3.1, h3.2⟩

/-- Witness for C1 at a concrete system holding `k` only remotely. -/
theorem remote_fallback_repopulates_witness :
    (TwoTier.Get ⟨⟨⟨1, []⟩, 10⟩, [("k", ⟨[7], none⟩)]⟩ 0 "k").1
        = GetResult.ok [7] ∧
    (TwoTier.Get ⟨⟨⟨1, []⟩, 10⟩, [("k", ⟨[7], none⟩)]⟩ 0 "k").2.1.cache.memCache.lookup "k"
        = some ⟨[7], 10⟩ ∧
    (TwoTier.Get
        (TwoTier.Get ⟨⟨⟨1, []⟩, 10⟩, [("k", ⟨[7], none⟩)]⟩ 0 "k").2.1 5 "k").1
        = GetResult.ok [7] ∧
    (TwoTier.Get
        (TwoTier.Get ⟨⟨⟨1, []⟩, 10⟩, [("k", ⟨[7], none⟩)]⟩ 0 "k").2.1 5 "k").2.2
        = [] :=
  remote_fallback_repopulates ⟨⟨⟨1, []⟩, 10⟩, [("k", ⟨[7], none⟩)]⟩ 0 5 "k" [7]
    (by decide) (by decide) (by decide) (by decide)

/-- C3: a local entry whose expiry lies strictly in the past is treated as
absent: `Get` behaves exactly as on the cache with the entry removed, it
performs the remote fallback, and the stale entry is gone from the local
cache afterwards (so the stale value is never served locally). -/
theorem expired_entry_treated_as_absent (c : Cache)
    (rg : String → RedisReply) (now : Nat) (k : String) (e : cacheEntry)
    (hl : c.memCache.lookup k = some e) (hexp : e.expiresAt < now) :
    Cache.Get c rg now k
        = Cache.Get ⟨c.memCache.remove k, c.defaultTTL⟩ rg now k ∧
    (Cache.Get c rg now k).2.2 = [RemoteOp.get k] ∧
    (Cache.Get c rg now k).2.1.memCache.lookup k ≠ some e := by
  have hnf : ¬ now < e.expiresAt := by omega
  have h1 := get_of_expired c rg now k e hl hnf
  have hrm : (⟨c.memCache.remove k, c.defaultTTL⟩ : Cache).memCache.lookup k
      = none := by
    simp [LRU.remove, LRU.lookup, find?_filter_ne]
  have h2 := get_of_lookup_none ⟨c.memCache.remove k, c.defaultTTL⟩ rg now k hrm
  refine ⟨h1.trans h2.symm, by rw [h1]; exact getRemote_trace _ rg now k, ?_⟩
  rw [h1]
  rcases hr : rg k with w | _ | m <;> simp only [Cache.getRemote, hr]
  · rcases Nat.eq_zero_or_pos c.memCache.capacity with h0 | hpos
    · rw [lookup_add_of_zero (c.memCache.remove k) k k ⟨w, now + c.defaultTTL⟩ h0]
      simp
    · rw [lookup_add_of_pos (c.memCache.remove k) k ⟨w, now + c.defaultTTL⟩ hpos]
      intro hcontra
      have hee : (⟨w, now + c.defaultTTL⟩ : cacheEntry) = e :=
        Option.some.inj hcontra
      have hx : e.expiresAt = now + c.defaultTTL := by rw [← hee]
      omega
  · simp [hrm]
  · simp [hrm]

/-- Witness for C3 at a concrete cache holding a stale entry. -/
theorem expired_entry_treated_as_absent_witness :
    (Cache.Get ⟨⟨1, [("k", ⟨[5], 2⟩)]⟩, 10⟩ constNil 3 "k"
        = Cache.Get ⟨(⟨1, [("k", ⟨[5], 2⟩)]⟩ : LRU).remove "k", 10⟩
            constNil 3 "k") ∧
    (Cache.Get ⟨⟨1, [("k", ⟨[5], 2⟩)]⟩, 10⟩ constNil 3 "k").2.2
        = [RemoteOp.get "k"] ∧
    (Cache.Get ⟨⟨1, [("k", ⟨[5], 2⟩)]⟩, 10⟩ constNil 3 "k").2.1.memCache.lookup "k"
        ≠ some ⟨[5], 2⟩ :=
  expired_entry_treated_as_absent ⟨⟨1, [("k", ⟨[5], 2⟩)]⟩, 10⟩ constNil 3 "k"
    ⟨[5], 2⟩ (by decide) (by decide)

/-- C7: with a zero default TTL every entry written by `Set` or
repopulated by a falling-through `Get` is immediately stale: any later
`Get` (at or after the write instant) issues the remote `GET` instead of
serving the value from the local layer. -/
theorem zero_ttl_disables_local_layer (c : Cache)
    (rg rgB : String → RedisReply) (now nowG : Nat) (k : String) (v : Bytes)
    (httl : c.defaultTTL = 0) (hle : now ≤ nowG)
    (hfresh : c.localFresh now k = false) (hr : rg k = RedisReply.ok v) :
    (Cache.Get (Cache.Set c now k v).1 rgB nowG k).2.2 = [RemoteOp.get k] ∧
    (Cache.Get (Cache.Get c rg now k).2.1 rgB nowG k).2.2
        = [RemoteOp.get k] := by
  constructor
  · exact get_trace_after_stale_add c.memCache c.defaultTTL rgB nowG k
      ⟨v, now + c.defaultTTL⟩ (by simp only []; omega)
  · obtain ⟨mem, hmc, heq⟩ := get_fallback_core c rg now k v hfresh hr
    rw [heq]
    exact get_trace_after_stale_add mem c.defaultTTL rgB nowG k
      ⟨v, now + c.defaultTTL⟩ (by simp only []; omega)

/-- Witness for C7 at a concrete zero-TTL cache. -/
theorem zero_ttl_disables_local_layer_witness :
    (Cache.Get (Cache.Set ⟨⟨1, []⟩, 0⟩ 0 "a" [1]).1 constNil 0 "a").2.2
        = [RemoteOp.get "a"] ∧
    (Cache.Get (Cache.Get ⟨⟨1, []⟩, 0⟩ (constOk [1]) 0 "a").2.1
        constNil 0 "a").2.2 = [RemoteOp.get "a"] :=
  zero_ttl_disables_local_layer ⟨⟨1, []⟩, 0⟩ (constOk [1]) constNil 0 0 "a" [1]
    rfl (by decide) (by decide) rfl

end CacheCraft
